import Mathlib

/-!
Verification of the xvisbell2 natural-language specification against a shallow
embedding of `src/xvisbell.c` (the file built by the Makefile; its former name
in this tree is `src/unnamed/part_000`).

The embedding models:
  * `struct timespec` values as pairs of mathematical integers
    (`tv_sec`, `tv_nsec` are C `long`s; no arithmetic here comes near 2^63,
    so plain `Int` is a faithful model);
  * `timespec_diff` (lines 69-83 of the C source) exactly as written;
  * the continuous-mode event loop of `main` (lines 344-375) as a step
    function over a loop state, with clock readings and the drained X event
    queue supplied as inputs;
  * `update_timeout_and_hide` (lines 227-235);
  * `flash_once_and_exit` (lines 239-263) under an idealised timing model in
    which `nanosleep` sleeps exactly the requested time and `clock_gettime`
    returns exact monotone readings;
  * `parse_long` / `parse_ulong` (lines 90-115) on top of a faithful model of
    C `strtol`/`strtoul` in base 10, and the option handlers of `parse_args`
    (lines 121-225);
  * the background-pixel selection and window-creation sequencing of `main`
    (lines 304-340).
-/

namespace XVisBell

/-- Model of C `struct timespec`: `tv_sec` and `tv_nsec` as integers. -/
structure Timespec where
  sec : Int
  nsec : Int
deriving DecidableEq

/-- Total value of a timespec in nanoseconds. -/
def Timespec.toNs (t : Timespec) : Int := t.sec * 1000000000 + t.nsec

/-- A well-formed (normalised) timespec, as produced by `clock_gettime` and
required by `pselect`/`nanosleep`: the nanosecond field lies in `[0, 10^9)`. -/
abbrev validTs (t : Timespec) : Prop := 0 ≤ t.nsec ∧ t.nsec < 1000000000

/-- Lexicographic strict order on timespec fields; `timespec_diff` compares
its arguments this way. -/
abbrev tsLtLex (a b : Timespec) : Prop :=
  a.sec < b.sec ∨ (a.sec = b.sec ∧ a.nsec < b.nsec)

/-- C `timespec_diff` (lines 69-83): returns `stop - start`, or `{0, 0}` if
`stop` is lexicographically before `start`.  The C source writes
`1.0e9 + end->tv_nsec - start->tv_nsec` using a double literal; the addends
are far below 2^53, so the computation is exact and equals the integer
`1000000000 + stop.nsec - start.nsec`. -/
def timespec_diff (start stop : Timespec) : Timespec :=
  if start.sec > stop.sec ∨ (start.sec = stop.sec ∧ start.nsec > stop.nsec) then ⟨0, 0⟩
  else if stop.nsec - start.nsec < 0 then
    ⟨stop.sec - start.sec - 1, 1000000000 + stop.nsec - start.nsec⟩
  else ⟨stop.sec - start.sec, stop.nsec - start.nsec⟩

/-- The duration timespec built in `main` (line 329):
`{bell.duration / 1000, (bell.duration % 1000) * 1000000}` where
`bell.duration` is a C `unsigned long`. -/
def durationOfMs (d : Nat) : Timespec :=
  ⟨((d / 1000 : Nat) : Int), (((d % 1000) * 1000000 : Nat) : Int)⟩

/-- The deadline computation of `main` (lines 372-373) and
`flash_once_and_exit` (lines 243-244): componentwise addition
`end_time.tv_sec += duration.tv_sec; end_time.tv_nsec += duration.tv_nsec`,
with no carry normalisation of the nanosecond field. -/
def tsAddDuration (t dur : Timespec) : Timespec :=
  ⟨t.sec + dur.sec, t.nsec + dur.nsec⟩

/-! ## The continuous-mode event loop (lines 320-375 of the C source) -/

/-- State of the continuous-mode loop.  `visible` and `end_time` are the C
locals of the same names in `main`.  `deadlineSet` is a specification-only
history variable: it is set to `true` exactly where the C code assigns
`end_time` inside the loop (processing a `XkbBellNotify` event, lines
370-373), and to `false` exactly where the loop hides the window
(`XUnmapWindow` in `update_timeout_and_hide`, lines 232-233) and at program
start.  It records "a deadline has been set since the last hide". -/
structure LoopState where
  visible : Bool
  end_time : Timespec
  deadlineSet : Bool
deriving DecidableEq

/-- Initial loop state (lines 323-326): `visible = false`; `end_time` is an
uninitialised C local, modelled as an arbitrary fixed value — nothing reads
it while `visible` is false. -/
def initState : LoopState := ⟨false, ⟨0, 0⟩, false⟩

/-- C `update_timeout_and_hide` (lines 227-235), called with the current
clock reading `now`: recomputes `timeout = timespec_diff(now, end_time)` and,
if it is `{0,0}` (deadline reached or passed), unmaps the window and clears
`visible`.  Returns the updated state and the computed timeout. -/
def update_timeout_and_hide (now : Timespec) (s : LoopState) : LoopState × Timespec :=
  let timeout := timespec_diff now s.end_time
  if timeout.sec = 0 ∧ timeout.nsec = 0 then
    ({ s with visible := false, deadlineSet := false }, timeout)
  else (s, timeout)

/-- An event drained from the X connection: a `XkbBellNotify` event (with the
`clock_gettime` reading taken while processing it) or any other event, which
the loop ignores (line 366). -/
inductive XEv
  | bell (t : Timespec)
  | other
deriving DecidableEq

/-- Processing of one drained event (lines 362-374): a bell event maps the
window (`XMapRaised`), sets `visible`, and overwrites `end_time` with
`now + duration` (componentwise, no carry); any other event is skipped. -/
def processEvent (dur : Timespec) (s : LoopState) (ev : XEv) : LoopState :=
  match ev with
  | XEv.other => s
  | XEv.bell t => ⟨true, tsAddDuration t dur, true⟩

/-- The timeout argument the loop passes to `pselect` (line 354).  The C code
always passes the address of the local `timeout`, never `NULL`; `none` (the
model of a `NULL` pointer, meaning block indefinitely) is never produced.
When `visible` is false the local keeps its initialiser `{0, 0}` (line 345),
so `pselect` is given a zero timeout and returns immediately. -/
def pselect_timeout_arg (s : LoopState) (t1 : Timespec) : Option Timespec :=
  some (if s.visible then (update_timeout_and_hide t1 s).2 else ⟨0, 0⟩)

/-- Argument validity check `pselect` applies to its timeout (POSIX: `EINVAL`
when `tv_sec` is negative or `tv_nsec` is outside `[0, 10^9)`). -/
def pselectTimeoutOk (t : Timespec) : Prop :=
  0 ≤ t.sec ∧ 0 ≤ t.nsec ∧ t.nsec < 1000000000

instance (t : Timespec) : Decidable (pselectTimeoutOk t) := by
  unfold pselectTimeoutOk; infer_instance

/-- One iteration of the `for (;;)` loop (lines 344-375), given the clock
reading `t1` at the pre-wait check, the reading `t2` at the post-wait check,
and the list `evs` of events drained by the `XPending` loop.
`Except.error 1` is the `return 1` taken when `pselect` fails with an error
other than `EINTR` (lines 354-358); it fires exactly when the timeout handed
to `pselect` is not a valid timespec.  `EINTR` retries are invisible here. -/
def loopIter (dur t1 t2 : Timespec) (evs : List XEv) (s : LoopState) :
    Except Nat LoopState :=
  let s1 := if s.visible then (update_timeout_and_hide t1 s).1 else s
  let timeout := if s.visible then (update_timeout_and_hide t1 s).2 else (⟨0, 0⟩ : Timespec)
  if pselectTimeoutOk timeout then
    let s2 := if s1.visible then (update_timeout_and_hide t2 s1).1 else s1
    Except.ok (evs.foldl (processEvent dur) s2)
  else Except.error 1

/-- External inputs of one loop iteration: the two clock readings and the
drained events. -/
structure IterInput where
  t1 : Timespec
  t2 : Timespec
  evs : List XEv
deriving DecidableEq

/-- Run of the continuous-mode loop over a list of per-iteration inputs. -/
def runLoop (dur : Timespec) : List IterInput → LoopState → Except Nat LoopState
  | [], s => Except.ok s
  | i :: is, s =>
    match loopIter dur i.t1 i.t2 i.evs s with
    | Except.error n => Except.error n
    | Except.ok s' => runLoop dur is s'

/-! ## One-shot mode: `flash_once_and_exit` (lines 239-263) -/

/-- Normalised timespec for a (non-negative) total nanosecond count; models a
monotone clock reading at that instant. -/
def normalizeNs (n : Int) : Timespec :=
  ⟨((n.toNat / 1000000000 : Nat) : Int), ((n.toNat % 1000000000 : Nat) : Int)⟩

/-- One iteration of the wait loop of `flash_once_and_exit` (lines 253-261)
under idealised timing: read the clock (`now`), compute
`timeout = timespec_diff(now, end_time)`; if it is `{0,0}` unmap the window
and `exit(0)` (`none`); otherwise `nanosleep(timeout)` and come back at clock
reading `now + timeout` (`some` of that reading). -/
def flash_step (stop now : Timespec) : Option Timespec :=
  let timeout := timespec_diff now stop
  if timeout.sec = 0 ∧ timeout.nsec = 0 then none
  else some (normalizeNs (now.toNs + timeout.toNs))

/-- The wait loop of `flash_once_and_exit`, fuelled: returns the exit status
(always 0, from the `exit(0)` at line 258) paired with the clock reading at
which the window was unmapped, or `none` if the fuel ran out first.
The window is mapped (`XMapRaised`, line 247) before this loop starts and
stays mapped until the `none` branch of `flash_step` unmaps it. -/
def flash_once_run (stop : Timespec) : Nat → Timespec → Option (Nat × Timespec)
  | 0, _ => none
  | fuel + 1, now =>
    match flash_step stop now with
    | none => some (0, now)
    | some w => flash_once_run stop fuel w

/-- Whole of `flash_once_and_exit` for start-of-flash clock reading `start`
and configured duration `dur`: the deadline is the componentwise sum
`start + dur` (lines 242-244), and the wait loop runs from `start`. -/
def flash_once_and_exit (start dur : Timespec) (fuel : Nat) : Option (Nat × Timespec) :=
  flash_once_run (tsAddDuration start dur) fuel start

/-! ## Argument parsing: `parse_long`, `parse_ulong`, `parse_args`
(lines 90-225) -/

def LONG_MAX : Int := 9223372036854775807
def LONG_MIN : Int := -9223372036854775808
def ULONG_MAX : Nat := 18446744073709551615
def INT_MAX : Int := 2147483647
def INT_MIN : Int := -2147483648
def UINT_MAX : Int := 4294967295

/-- C `isspace` in the default locale. -/
def isSpaceC (c : Char) : Bool :=
  c = ' ' ∨ c = '\t' ∨ c = '\n' ∨ c = '\x0b' ∨ c = '\x0c' ∨ c = '\r'

def isDigitC (c : Char) : Bool := '0' ≤ c ∧ c ≤ '9'

/-- Value of a base-10 digit string (most significant first). -/
def digitsToNat : List Char → Nat → Nat
  | [], acc => acc
  | c :: cs, acc => digitsToNat cs (acc * 10 + (c.toNat - '0'.toNat))

/-- Result of a C `strtol`/`strtoul` call: the returned value, whether
`errno` was set to `ERANGE`, and the tail of the input that `*end` points
at. -/
structure CParse where
  value : Int
  erange : Bool
  rest : List Char
deriving DecidableEq

/-- C `strtol(s, &end, 10)`: skip whitespace, optional sign, longest digit
run; on no conversion return 0 with `end = s`; clamp to
`LONG_MAX`/`LONG_MIN` with `ERANGE` on overflow. -/
def strtol10 (s : List Char) : CParse :=
  let s1 := s.dropWhile isSpaceC
  let signRest : Bool × List Char :=
    match s1 with
    | '-' :: r => (true, r)
    | '+' :: r => (false, r)
    | _ => (false, s1)
  let ds := signRest.2.takeWhile isDigitC
  let rest := signRest.2.dropWhile isDigitC
  if ds.isEmpty then ⟨0, false, s⟩
  else
    let v : Int := if signRest.1 then -(digitsToNat ds 0 : Int) else (digitsToNat ds 0 : Int)
    if v > LONG_MAX then ⟨LONG_MAX, true, rest⟩
    else if v < LONG_MIN then ⟨LONG_MIN, true, rest⟩
    else ⟨v, false, rest⟩

/-- Result of `strtoul`: value is an unsigned long (`Nat` below `2^64`). -/
structure CParseU where
  value : Nat
  erange : Bool
  rest : List Char
deriving DecidableEq

/-- C `strtoul(s, &end, 10)`: like `strtol` but a leading minus sign negates
the converted magnitude in `unsigned long` arithmetic (modulo `2^64`);
`ERANGE` only when the magnitude itself exceeds `ULONG_MAX`. -/
def strtoul10 (s : List Char) : CParseU :=
  let s1 := s.dropWhile isSpaceC
  let signRest : Bool × List Char :=
    match s1 with
    | '-' :: r => (true, r)
    | '+' :: r => (false, r)
    | _ => (false, s1)
  let ds := signRest.2.takeWhile isDigitC
  let rest := signRest.2.dropWhile isDigitC
  if ds.isEmpty then ⟨0, false, s⟩
  else
    let m := digitsToNat ds 0
    if m > ULONG_MAX then ⟨ULONG_MAX, true, rest⟩
    else ⟨(if signRest.1 then (18446744073709551616 - m) % 18446744073709551616 else m), false, rest⟩

/-- Reinterpretation of an `unsigned long` bit pattern as a (signed) `long`,
as happens at line 110 (`long parsed = strtoul(...)`). -/
def toSigned64 (n : Nat) : Int :=
  if n < 9223372036854775808 then (n : Int) else (n : Int) - 18446744073709551616

/-- C `parse_long` (lines 90-99): `none` models returning `true` (parse
failure, `*l` untouched); `some v` models returning `false` with `*l = v`. -/
def parse_long (s : List Char) : Option Int :=
  let r := strtol10 s
  if r.erange ∧ (r.value = LONG_MAX ∨ r.value = LONG_MIN) then none
  else if r.rest ≠ [] then none
  else some r.value

/-- C `parse_ulong` (lines 106-115): the `strtoul` result is stored in a
signed `long parsed`; the overflow check reads `errno == ERANGE && (parsed ==
LONG_MAX || parsed < 0)`; on success `*l = parsed` converts back to
`unsigned long`. -/
def parse_ulong (s : List Char) : Option Nat :=
  let r := strtoul10 s
  let parsed : Int := toSigned64 r.value
  if r.erange ∧ (parsed = LONG_MAX ∨ parsed < 0) then none
  else if r.rest ≠ [] then none
  else some r.value

/-- The mutable configuration globals `bell` and `flash_once`
(lines 57-65). -/
structure ProgCfg where
  x : Int
  y : Int
  w : Int
  h : Int
  duration : Nat
  color : Option String
  flash_once : Bool
deriving DecidableEq

/-- Initialisers of the globals: `bell = {0, 0, -1, -1, 100, NULL}` and
`flash_once = false`. -/
def defaultCfg : ProgCfg := ⟨0, 0, -1, -1, 100, none, false⟩

/-- A recognised command-line option together with its argument string. -/
inductive CLIOpt
  | optW (s : String)
  | optH (s : String)
  | optX (s : String)
  | optY (s : String)
  | optC (s : String)
  | optD (s : String)
  | optF
deriving DecidableEq

def msgInvalidWidth (s : String) : String := "Invalid width " ++ s ++ "\n"
def msgInvalidHeight (s : String) : String := "Invalid height " ++ s ++ "\n"
def msgInvalidX (s : String) : String := "Invalid x position " ++ s ++ "\n"
def msgInvalidY (s : String) : String := "Invalid y position " ++ s ++ "\n"
def msgInvalidDuration (s : String) : String :=
  "Invalid duration " ++ s ++ ". Should be a non-negative number of milliseconds.\n"

/-- The out-of-range width message (line 150): `printf("... %d\n", UINT_MAX)`
passes the `unsigned int` value 4294967295 to a `%d` conversion, which
reinterprets it as the `int` -1. -/
def msgWidthTooBig : String := "Invalid width. The maximum width is -1\n"
def msgHeightTooBig : String := "Invalid height. The maximum height is -1\n"
def msgXRange : String :=
  "Invalid x. Must be an integer in the range (-2147483648, 2147483647)\n"
def msgYRange : String :=
  "Invalid y. Must be an integer in the range (-2147483648, 2147483647)\n"

/-- One case of the `switch` in `parse_args` (lines 139-223).  An error value
is the list of lines printed before the `exit`, paired with the exit status.
The OOM branch of `strdup` in the colour case is not modelled. -/
def applyOpt (c : ProgCfg) : CLIOpt → Except (List String × Nat) ProgCfg
  | CLIOpt.optW s =>
    match parse_long s.data with
    | none => Except.error ([msgInvalidWidth s], 1)
    | some tmp =>
      if tmp > UINT_MAX then Except.error ([msgWidthTooBig], 1)
      else Except.ok { c with w := if tmp < 0 then -1 else tmp }
  | CLIOpt.optH s =>
    match parse_long s.data with
    | none => Except.error ([msgInvalidHeight s], 1)
    | some tmp =>
      if tmp > UINT_MAX then Except.error ([msgHeightTooBig], 1)
      else Except.ok { c with h := if tmp < 0 then -1 else tmp }
  | CLIOpt.optX s =>
    match parse_long s.data with
    | none => Except.error ([msgInvalidX s], 1)
    | some tmp =>
      if tmp < INT_MIN ∨ tmp > INT_MAX then Except.error ([msgXRange], 1)
      else Except.ok { c with x := tmp }
  | CLIOpt.optY s =>
    match parse_long s.data with
    | none => Except.error ([msgInvalidY s], 1)
    | some tmp =>
      if tmp < INT_MIN ∨ tmp > INT_MAX then Except.error ([msgYRange], 1)
      else Except.ok { c with y := tmp }
  | CLIOpt.optC s => Except.ok { c with color := some s }
  | CLIOpt.optD s =>
    match parse_ulong s.data with
    | none => Except.error ([msgInvalidDuration s], 1)
    | some d => Except.ok { c with duration := d }
  | CLIOpt.optF => Except.ok { c with flash_once := true }

/-- `parse_args` over the recognised options, starting from the global
initialisers' state. -/
def parse_args : List CLIOpt → ProgCfg → Except (List String × Nat) ProgCfg
  | [], c => Except.ok c
  | o :: os, c =>
    match applyOpt c o with
    | Except.error e => Except.error e
    | Except.ok c' => parse_args os c'

/-- The start of `main` (lines 265-268): `parse_args` runs to completion
before `XOpenDisplay` is ever called, so a parse error exits before any
display connection exists. -/
inductive ProgStage
  | exitedBeforeDisplay (printed : List String) (status : Nat)
  | openedDisplay (cfg : ProgCfg)
deriving DecidableEq

def mainStart (opts : List CLIOpt) : ProgStage :=
  match parse_args opts defaultCfg with
  | Except.error (msgs, st) => ProgStage.exitedBeforeDisplay msgs st
  | Except.ok cfg => ProgStage.openedDisplay cfg

/-! ## Colour resolution and window creation (lines 304-340) -/

/-- C `strncmp(a, b, n)` on NUL-terminated strings without interior NULs:
compare at most `n` characters; a string end behaves as character 0. -/
def cstrncmp : List Char → List Char → Nat → Int
  | _, _, 0 => 0
  | [], [], _ + 1 => 0
  | [], c :: _, _ + 1 => -(c.toNat : Int)
  | c :: _, [], _ + 1 => (c.toNat : Int)
  | a :: as, b :: bs, n + 1 =>
    if a = b then cstrncmp as bs n else (a.toNat : Int) - (b.toNat : Int)

def whiteName : String := "white"

def msgColourUnsupported (c : String) : String :=
  "Colour " ++ c ++ " isn't supported\n"

/-- Background-pixel selection (lines 308-318): `NULL` colour or a colour
whose first five characters compare equal to `"white"` yields
`WhitePixel(display, screen)` (the parameter `whitePx`); otherwise the name
is resolved with `XAllocNamedColor` (the oracle `alloc`, `none` = allocation
failed), and failure prints an error and `exit(1)`s. -/
def chooseBackgroundPixel (color : Option String) (whitePx : Nat)
    (alloc : String → Option Nat) : Except (String × Nat) Nat :=
  match color with
  | none => Except.ok whitePx
  | some c =>
    if cstrncmp c.data whiteName.data 5 = 0 then Except.ok whitePx
    else
      match alloc c with
      | none => Except.error (msgColourUnsupported c, 1)
      | some px => Except.ok px

/-- Width resolution (line 332): `bell.w < 0 ? DisplayWidth(...) : bell.w`. -/
def resolvedWidth (w dispW : Int) : Int := if w < 0 then dispW else w

/-- Height resolution (line 333): `bell.h < 0 ? DisplayHeight(...) : bell.h`. -/
def resolvedHeight (h dispH : Int) : Int := if h < 0 then dispH else h

/-- Outcome of the setup phase between colour resolution and
`XCreateWindow`. -/
inductive SetupResult
  | exitedBeforeWindow (msg : String) (status : Nat)
  | windowCreated (bgPixel : Nat) (width height : Int)
deriving DecidableEq

/-- The setup sequence of `main` (lines 304-340): the colour block runs
first; only if it succeeds are the window dimensions resolved and
`XCreateWindow` called.  An unresolvable colour therefore exits (status 1)
before any window exists. -/
def setupWindow (cfg : ProgCfg) (whitePx : Nat) (alloc : String → Option Nat)
    (dispW dispH : Int) : SetupResult :=
  match chooseBackgroundPixel cfg.color whitePx alloc with
  | Except.error (m, st) => SetupResult.exitedBeforeWindow m st
  | Except.ok px =>
    SetupResult.windowCreated px (resolvedWidth cfg.w dispW) (resolvedHeight cfg.h dispH)

/-- Concrete colour-resolution oracle: every name unresolvable. -/
def allocNone : String → Option Nat := fun _ => none

/-- Concrete colour-resolution oracle: every name resolves to pixel 5. -/
def allocFive : String → Option Nat := fun _ => some 5

/-! ## Arithmetic lemmas about `timespec_diff` and friends -/

theorem toNs_tsAddDuration (t dur : Timespec) :
    (tsAddDuration t dur).toNs = t.toNs + dur.toNs := by
  simp only [tsAddDuration, Timespec.toNs]
  ring

theorem toNs_durationOfMs (d : Nat) :
    (durationOfMs d).toNs = (d : Int) * 1000000 := by
  simp only [durationOfMs, Timespec.toNs]
  omega

theorem diff_eq_zero_of_ge {a b : Timespec} (ha : validTs a) (hb : 0 ≤ b.nsec)
    (h : b.toNs ≤ a.toNs) : timespec_diff a b = ⟨0, 0⟩ := by
  obtain ⟨ha1, ha2⟩ := ha
  simp only [Timespec.toNs] at h
  unfold timespec_diff
  split_ifs with h1 h2
  · rfl
  · exfalso; omega
  · simp only [Timespec.mk.injEq]
    constructor <;> omega

theorem diff_toNs {a b : Timespec}
    (hn : ¬ (a.sec > b.sec ∨ (a.sec = b.sec ∧ a.nsec > b.nsec))) :
    (timespec_diff a b).toNs = b.toNs - a.toNs := by
  unfold timespec_diff
  split_ifs with h1
  · simp only [Timespec.toNs]; ring
  · simp only [Timespec.toNs]; ring

theorem diff_ne_zero_of_lt {a b : Timespec} (ha : validTs a) (hb : 0 ≤ b.nsec)
    (h : tsLtLex a b) :
    ¬ ((timespec_diff a b).sec = 0 ∧ (timespec_diff a b).nsec = 0) := by
  obtain ⟨ha1, ha2⟩ := ha
  unfold tsLtLex at h
  unfold timespec_diff
  split_ifs with h1 h2 <;> simp only [] <;> omega

theorem diff_valid {a b : Timespec} (ha : validTs a) (hb : validTs b) :
    validTs (timespec_diff a b) := by
  obtain ⟨ha1, ha2⟩ := ha
  obtain ⟨hb1, hb2⟩ := hb
  unfold timespec_diff validTs
  split_ifs with h1 h2 <;> simp only [] <;> omega

theorem validTs_normalizeNs (n : Int) : validTs (normalizeNs n) := by
  unfold normalizeNs validTs
  simp only []
  omega

theorem toNs_normalizeNs {n : Int} (h : 0 ≤ n) : (normalizeNs n).toNs = n := by
  unfold normalizeNs Timespec.toNs
  simp only []
  omega

theorem sec_nonneg_normalizeNs (n : Int) : 0 ≤ (normalizeNs n).sec := by
  unfold normalizeNs
  simp only []
  omega

theorem normalizeNs_toNs {t : Timespec} (h : validTs t) (hs : 0 ≤ t.sec) :
    normalizeNs t.toNs = t := by
  obtain ⟨h1, h2⟩ := h
  cases t
  unfold normalizeNs Timespec.toNs
  simp only [] at h1 h2 hs ⊢
  simp only [Timespec.mk.injEq]
  omega

theorem diff_add_self (t dur : Timespec) (hds : 0 ≤ dur.sec) (hdn : 0 ≤ dur.nsec) :
    timespec_diff t (tsAddDuration t dur) = dur := by
  unfold timespec_diff tsAddDuration
  split_ifs with h1 h2
  · exfalso; simp only [] at h1; omega
  · exfalso; simp only [] at h2; omega
  · cases dur
    simp only [Timespec.mk.injEq]
    constructor <;> omega

theorem flash_once_run_succ (stp : Timespec) (f : Nat) (now : Timespec) :
    flash_once_run stp (f + 1) now
      = match flash_step stp now with
        | none => some (0, now)
        | some w => flash_once_run stp f w := rfl

/-! ## Preservation lemmas for the loop invariant
`visible = deadlineSet` -/

theorem inv_update (t : Timespec) (s : LoopState)
    (h : s.visible = s.deadlineSet) :
    (update_timeout_and_hide t s).1.visible = (update_timeout_and_hide t s).1.deadlineSet := by
  simp only [update_timeout_and_hide]
  split_ifs <;> simp [h]

theorem inv_condUpdate (t : Timespec) (s : LoopState)
    (h : s.visible = s.deadlineSet) :
    (if s.visible = true then (update_timeout_and_hide t s).1 else s).visible
      = (if s.visible = true then (update_timeout_and_hide t s).1 else s).deadlineSet := by
  split_ifs with hv
  · exact inv_update t s h
  · exact h

theorem inv_processEvent (dur : Timespec) (s : LoopState) (ev : XEv)
    (h : s.visible = s.deadlineSet) :
    (processEvent dur s ev).visible = (processEvent dur s ev).deadlineSet := by
  cases ev <;> simp [processEvent, h]

theorem inv_foldl (dur : Timespec) (evs : List XEv) (s : LoopState)
    (h : s.visible = s.deadlineSet) :
    (evs.foldl (processEvent dur) s).visible = (evs.foldl (processEvent dur) s).deadlineSet := by
  induction evs generalizing s with
  | nil => exact h
  | cons ev evs ih => exact ih _ (inv_processEvent dur s ev h)

theorem inv_loopIter (dur t1 t2 : Timespec) (evs : List XEv) (s s' : LoopState)
    (h : s.visible = s.deadlineSet)
    (hit : loopIter dur t1 t2 evs s = Except.ok s') :
    s'.visible = s'.deadlineSet := by
  simp only [loopIter] at hit
  by_cases hok :
      pselectTimeoutOk (if s.visible = true then (update_timeout_and_hide t1 s).2 else ⟨0, 0⟩)
  · rw [if_pos hok] at hit
    have h1 := inv_condUpdate t1 s h
    have h2 := inv_condUpdate t2 _ h1
    have h3 := inv_foldl dur evs _ h2
    rw [← Except.ok.inj hit]
    exact h3
  · rw [if_neg hok] at hit
    cases hit

theorem inv_runLoop (dur : Timespec) (ins : List IterInput) (s s' : LoopState)
    (h : s.visible = s.deadlineSet)
    (hrun : runLoop dur ins s = Except.ok s') :
    s'.visible = s'.deadlineSet := by
  induction ins generalizing s with
  | nil =>
    unfold runLoop at hrun
    cases hrun
    exact h
  | cons i is ih =>
    unfold runLoop at hrun
    cases hit : loopIter dur i.t1 i.t2 i.evs s with
    | error n => rw [hit] at hrun; cases hrun
    | ok s1 =>
      rw [hit] at hrun
      exact ih s1 (inv_loopIter dur i.t1 i.t2 i.evs s s1 h hit) hrun

/-! ## Claim theorems -/

/-- Claim C1.  The claim says the continuous-mode loop waits indefinitely
while Hidden.  The code does not: `timeout` is initialised to `{0, 0}` (line
345), is only recomputed when `visible` (line 351), and its address — never
`NULL` — is always passed to `pselect` (line 354).  So while Hidden the loop
hands `pselect` a zero timeout and it returns immediately: a busy-poll with
continuous wakeups, not an indefinite event-only wait.  This theorem
evaluates the timeout argument at the failing input (any Hidden state): it
is `some {0,0}`, and no state ever produces `none` (the model of a `NULL`
timeout pointer / indefinite wait). -/
theorem c1_hidden_wait_zero (t1 stopT : Timespec) (ds : Bool) :
    pselect_timeout_arg ⟨false, stopT, ds⟩ t1 = some ⟨0, 0⟩
    ∧ ∀ s : LoopState, pselect_timeout_arg s t1 ≠ none := by
  constructor
  · rfl
  · intro s
    simp [pselect_timeout_arg]

/-- Claim C2.  In every state reachable by the continuous-mode loop from the
initial state, the visibility flag equals the history flag "a deadline has
been set since the last hide": bell processing sets both, the hide in
`update_timeout_and_hide` clears both, and every other operation of an
iteration (the pre-wait check, the post-wait check, and processing of each
drained event) leaves the equality intact. -/
theorem c2_visible_iff_deadline_set (dur : Timespec) (ins : List IterInput)
    (s' : LoopState) (h : runLoop dur ins initState = Except.ok s') :
    s'.visible = s'.deadlineSet :=
  inv_runLoop dur ins initState s' rfl h

theorem c2_visible_iff_deadline_set_witness :
    (⟨true, ⟨0, 100000000⟩, true⟩ : LoopState).visible
      = (⟨true, ⟨0, 100000000⟩, true⟩ : LoopState).deadlineSet :=
  c2_visible_iff_deadline_set (durationOfMs 100)
    [⟨⟨0, 0⟩, ⟨0, 0⟩, [XEv.bell ⟨0, 0⟩]⟩]
    ⟨true, ⟨0, 100000000⟩, true⟩ (by rfl)

/-- Claim C4.  The claim says the continuous-mode loop never reaches a
terminal state, in particular for deadlines whose nanosecond component comes
from `end_time.tv_nsec += duration.tv_nsec`.  The code violates this: that
addition is never normalised, so with duration 1500 ms and a bell at clock
reading `{0, 0.6s}` the deadline becomes `{1, 1.1e9}`; at the next pre-wait
check at `{1, 0.1e9}`, `timespec_diff` yields `{0, 1000000000}`, whose
`tv_nsec` is out of range, so `pselect` fails with `EINVAL` (not `EINTR`)
and `main` executes `return 1` (lines 354-358): the loop terminates.  The
run below evaluates the loop at exactly that input. -/
theorem c4_loop_terminates_on_denormalized_deadline :
    runLoop (durationOfMs 1500)
      [⟨⟨0, 0⟩, ⟨0, 0⟩, [XEv.bell ⟨0, 600000000⟩]⟩,
       ⟨⟨1, 100000000⟩, ⟨1, 100000000⟩, []⟩]
      initState = Except.error 1
    ∧ timespec_diff ⟨1, 100000000⟩ ⟨1, 1100000000⟩ = ⟨0, 1000000000⟩
    ∧ ¬ pselectTimeoutOk (⟨0, 1000000000⟩ : Timespec) := by
  refine ⟨by rfl, by rfl, ?_⟩
  intro hc
  exact absurd hc.2.2 (by decide)

/-- Claim C3.  A bell event processed at clock reading `t1` while the window
is already visible leaves it visible (the re-map is a no-op on state beyond
timing), overwrites the single `end_time` with `t1 + duration`
(componentwise), and a hide check at any clock instant `tc` before the new
deadline — in particular at the original deadline — does not hide the
window; a later bell overwrites `end_time` again, so at any moment the one
deadline is the most recently set one. -/
theorem c3_retrigger_extends_deadline (dur : Timespec) (s : LoopState)
    (t1 tc : Timespec)
    (_hvis : s.visible = true)
    (hc : validTs tc)
    (ht1 : 0 ≤ t1.nsec) (hdn : 0 ≤ dur.nsec)
    (hlt : tsLtLex tc (tsAddDuration t1 dur)) :
    (processEvent dur s (XEv.bell t1)).visible = true
    ∧ (processEvent dur s (XEv.bell t1)).end_time = tsAddDuration t1 dur
    ∧ (update_timeout_and_hide tc (processEvent dur s (XEv.bell t1))).1.visible = true
    ∧ ∀ t2 : Timespec,
        (processEvent dur (processEvent dur s (XEv.bell t1)) (XEv.bell t2)).end_time
          = tsAddDuration t2 dur := by
  refine ⟨rfl, rfl, ?_, fun t2 => rfl⟩
  have hbn : 0 ≤ (tsAddDuration t1 dur).nsec := by
    simp only [tsAddDuration]
    omega
  have hne := diff_ne_zero_of_lt hc hbn hlt
  simp only [processEvent, update_timeout_and_hide]
  rw [if_neg hne]

theorem c3_retrigger_extends_deadline_witness :
    (processEvent (durationOfMs 100) ⟨true, ⟨0, 150000000⟩, true⟩
        (XEv.bell ⟨0, 100000000⟩)).visible = true
    ∧ (processEvent (durationOfMs 100) ⟨true, ⟨0, 150000000⟩, true⟩
        (XEv.bell ⟨0, 100000000⟩)).end_time
        = tsAddDuration ⟨0, 100000000⟩ (durationOfMs 100)
    ∧ (update_timeout_and_hide ⟨0, 150000000⟩
        (processEvent (durationOfMs 100) ⟨true, ⟨0, 150000000⟩, true⟩
          (XEv.bell ⟨0, 100000000⟩))).1.visible = true
    ∧ (processEvent (durationOfMs 100)
        (processEvent (durationOfMs 100) ⟨true, ⟨0, 150000000⟩, true⟩
          (XEv.bell ⟨0, 100000000⟩))
        (XEv.bell ⟨0, 300000000⟩)).end_time
        = tsAddDuration ⟨0, 300000000⟩ (durationOfMs 100) := by
  have h := c3_retrigger_extends_deadline (durationOfMs 100)
    ⟨true, ⟨0, 150000000⟩, true⟩ ⟨0, 100000000⟩ ⟨0, 150000000⟩
    rfl (by decide) (by decide) (by decide) (by decide)
  exact ⟨h.1, h.2.1, h.2.2.1, h.2.2.2 ⟨0, 300000000⟩⟩

/-- Claim C5.  For any pair of well-formed timestamps, the computed remaining
wait is never negative; when `now` is at or past the deadline the result is
exactly `{0,0}` and `update_timeout_and_hide` hides the window immediately;
otherwise the result is exactly `deadline - now` in integer
seconds/nanoseconds (a well-formed, non-zero timespec). -/
theorem c5_timeout_math (now dl : Timespec) (h1 : validTs now) (h2 : validTs dl) :
    0 ≤ (timespec_diff now dl).toNs
    ∧ (dl.toNs ≤ now.toNs →
        timespec_diff now dl = ⟨0, 0⟩
        ∧ ∀ ds : Bool, (update_timeout_and_hide now ⟨true, dl, ds⟩).1.visible = false)
    ∧ (now.toNs < dl.toNs →
        (timespec_diff now dl).toNs = dl.toNs - now.toNs
        ∧ validTs (timespec_diff now dl)
        ∧ timespec_diff now dl ≠ ⟨0, 0⟩) := by
  obtain ⟨hn1, hn2⟩ := h1
  obtain ⟨hd1, hd2⟩ := h2
  have hlt : now.toNs < dl.toNs → ¬ (now.sec > dl.sec ∨ (now.sec = dl.sec ∧ now.nsec > dl.nsec)) := by
    simp only [Timespec.toNs]
    omega
  refine ⟨?_, ?_, ?_⟩
  · rcases le_or_lt dl.toNs now.toNs with hge | hl
    · rw [diff_eq_zero_of_ge ⟨hn1, hn2⟩ hd1 hge]
      simp [Timespec.toNs]
    · rw [diff_toNs (hlt hl)]
      omega
  · intro hge
    have hz := diff_eq_zero_of_ge ⟨hn1, hn2⟩ hd1 hge
    refine ⟨hz, fun ds => ?_⟩
    simp [update_timeout_and_hide, hz]
  · intro hl
    have hlex : tsLtLex now dl := by
      simp only [Timespec.toNs] at hl
      unfold tsLtLex
      omega
    have hne := diff_ne_zero_of_lt ⟨hn1, hn2⟩ hd1 hlex
    refine ⟨diff_toNs (hlt hl), diff_valid ⟨hn1, hn2⟩ ⟨hd1, hd2⟩, ?_⟩
    intro hzero
    exact hne (by rw [hzero]; exact ⟨rfl, rfl⟩)

theorem c5_timeout_math_witness :
    timespec_diff ⟨5, 0⟩ ⟨4, 999999999⟩ = ⟨0, 0⟩
    ∧ (update_timeout_and_hide ⟨5, 0⟩ ⟨true, ⟨4, 999999999⟩, true⟩).1.visible = false
    ∧ (timespec_diff ⟨3, 900000000⟩ ⟨5, 100000000⟩).toNs
        = (⟨5, 100000000⟩ : Timespec).toNs - (⟨3, 900000000⟩ : Timespec).toNs := by
  have ha := (c5_timeout_math ⟨5, 0⟩ ⟨4, 999999999⟩ (by decide) (by decide)).2.1 (by decide)
  have hb := (c5_timeout_math ⟨3, 900000000⟩ ⟨5, 100000000⟩ (by decide) (by decide)).2.2 (by decide)
  exact ⟨ha.1, ha.2 true, hb.1⟩

/-- Claim C6.  In one-shot mode the event loop never runs: `main` branches to
`flash_once_and_exit` (line 342), which maps the window immediately, computes
the single deadline `start + duration`, sleeps the remaining delta each
iteration, and — within two iterations under idealised timing — unmaps the
window and exits with status 0 at the clock instant `start + d milliseconds`
exactly, hence not before `d` milliseconds have elapsed. -/
theorem c6_one_shot (d : Nat) (start : Timespec)
    (h1 : validTs start) (h2 : 0 ≤ start.sec) :
    flash_once_and_exit start (durationOfMs d) 2
      = some (0, normalizeNs (start.toNs + (d : Int) * 1000000))
    ∧ (normalizeNs (start.toNs + (d : Int) * 1000000)).toNs
        = start.toNs + (d : Int) * 1000000 := by
  have hds : 0 ≤ (durationOfMs d).sec := by
    simp only [durationOfMs]; omega
  have hdn : 0 ≤ (durationOfMs d).nsec := by
    simp only [durationOfMs]; omega
  have hstartNs : 0 ≤ start.toNs := by
    obtain ⟨a, b⟩ := h1
    simp only [Timespec.toNs]
    omega
  have htoNs : 0 ≤ start.toNs + (d : Int) * 1000000 := by omega
  have hnorm := toNs_normalizeNs htoNs
  refine ⟨?_, hnorm⟩
  have hdiff1 : timespec_diff start (tsAddDuration start (durationOfMs d))
      = durationOfMs d := diff_add_self start _ hds hdn
  unfold flash_once_and_exit
  by_cases hd : d = 0
  · subst hd
    have hz : timespec_diff start (tsAddDuration start (durationOfMs 0)) = ⟨0, 0⟩ := by
      rw [hdiff1]; rfl
    have stepz : flash_step (tsAddDuration start (durationOfMs 0)) start = none := by
      simp [flash_step, hz]
    rw [show (2 : Nat) = 1 + 1 from rfl, flash_once_run_succ, stepz]
    have : normalizeNs (start.toNs + ((0 : Nat) : Int) * 1000000) = start := by
      rw [show ((0 : Nat) : Int) * 1000000 = 0 by norm_num, add_zero]
      exact normalizeNs_toNs h1 h2
    rw [this]
  · have hne : ¬ ((durationOfMs d).sec = 0 ∧ (durationOfMs d).nsec = 0) := by
      simp only [durationOfMs]
      omega
    have step1 : flash_step (tsAddDuration start (durationOfMs d)) start
        = some (normalizeNs (start.toNs + (d : Int) * 1000000)) := by
      simp only [flash_step, hdiff1]
      rw [if_neg hne, toNs_durationOfMs]
    have hstopn : 0 ≤ (tsAddDuration start (durationOfMs d)).nsec := by
      obtain ⟨a, b⟩ := h1
      simp only [tsAddDuration, durationOfMs]
      omega
    have hle : (tsAddDuration start (durationOfMs d)).toNs
        ≤ (normalizeNs (start.toNs + (d : Int) * 1000000)).toNs := by
      rw [hnorm, toNs_tsAddDuration, toNs_durationOfMs]
    have hz2 := diff_eq_zero_of_ge (validTs_normalizeNs _) hstopn hle
    have step2 : flash_step (tsAddDuration start (durationOfMs d))
        (normalizeNs (start.toNs + (d : Int) * 1000000)) = none := by
      simp [flash_step, hz2]
    rw [show (2 : Nat) = 1 + 1 from rfl, flash_once_run_succ, step1]
    show flash_once_run _ 1 _ = _
    rw [show (1 : Nat) = 0 + 1 from rfl, flash_once_run_succ, step2]

theorem c6_one_shot_witness :
    flash_once_and_exit ⟨0, 950000000⟩ (durationOfMs 100) 2
      = some (0, normalizeNs ((⟨0, 950000000⟩ : Timespec).toNs + (100 : Int) * 1000000))
    ∧ (normalizeNs ((⟨0, 950000000⟩ : Timespec).toNs + (100 : Int) * 1000000)).toNs
        = (⟨0, 950000000⟩ : Timespec).toNs + (100 : Int) * 1000000 := by
  have h := c6_one_shot 100 ⟨0, 950000000⟩ (by decide) (by decide)
  exact ⟨h.1, h.2⟩

/-- Claim C7.  A numeric width/height argument accepted by `parse_args` (so
at most `UINT_MAX`) is stored as `-1` when negative, and verbatim otherwise;
the resolution at lines 332-333 then uses the display dimension exactly when
the stored value is negative and the stored value exactly otherwise.  The
defaults (`bell.w = bell.h = -1`) resolve to the display dimensions. -/
theorem c7_size_resolution (cfg cfg' : ProgCfg) (sw sh : String) (vw vh : Int)
    (dW dH : Int)
    (hw : applyOpt cfg (CLIOpt.optW sw) = Except.ok cfg')
    (hpw : parse_long sw.data = some vw) :
    ((vw < 0 → resolvedWidth cfg'.w dW = dW)
      ∧ (0 ≤ vw → resolvedWidth cfg'.w dW = vw))
    ∧ (∀ cfgH : ProgCfg, applyOpt cfg (CLIOpt.optH sh) = Except.ok cfgH →
        parse_long sh.data = some vh →
        (vh < 0 → resolvedHeight cfgH.h dH = dH)
        ∧ (0 ≤ vh → resolvedHeight cfgH.h dH = vh))
    ∧ resolvedWidth defaultCfg.w dW = dW
    ∧ resolvedHeight defaultCfg.h dH = dH := by
  refine ⟨?_, ?_, by simp [resolvedWidth, defaultCfg], by simp [resolvedHeight, defaultCfg]⟩
  · simp only [applyOpt, hpw] at hw
    by_cases hr : vw > UINT_MAX
    · rw [if_pos hr] at hw; cases hw
    · rw [if_neg hr] at hw
      have hcw : cfg'.w = if vw < 0 then -1 else vw := by
        rw [← Except.ok.inj hw]
      constructor
      · intro hneg
        rw [hcw, if_pos hneg]
        simp [resolvedWidth]
      · intro hpos
        rw [hcw, if_neg (by omega)]
        simp [resolvedWidth]
        omega
  · intro cfgH hh hph
    simp only [applyOpt, hph] at hh
    by_cases hr : vh > UINT_MAX
    · rw [if_pos hr] at hh; cases hh
    · rw [if_neg hr] at hh
      have hch : cfgH.h = if vh < 0 then -1 else vh := by
        rw [← Except.ok.inj hh]
      constructor
      · intro hneg
        rw [hch, if_pos hneg]
        simp [resolvedHeight]
      · intro hpos
        rw [hch, if_neg (by omega)]
        simp [resolvedHeight]
        omega

theorem c7_size_resolution_witness :
    resolvedWidth ({ defaultCfg with w := -1 } : ProgCfg).w 1920 = 1920
    ∧ resolvedHeight ({ defaultCfg with h := 600 } : ProgCfg).h 1080 = 600 := by
  have h := c7_size_resolution defaultCfg { defaultCfg with w := -1 }
    "-3" "600" (-3) 600 1920 1080 (by rfl) (by rfl)
  refine ⟨h.1.1 (by decide), ?_⟩
  have h2 := h.2.1 { defaultCfg with h := 600 } (by rfl) (by rfl)
  exact h2.2 (by decide)

/-- Claim C8, counterexample.  The claim says a negative duration argument is
rejected with an error, usage text, non-zero exit and no display connection.
The code accepts it: `parse_ulong` uses `strtoul`, for which a leading minus
sign negates the magnitude in `unsigned long` arithmetic without setting
`ERANGE`, so `-d -5` yields `bell.duration = 2^64 - 5 = 18446744073709551611`
and `main` proceeds to open the display. -/
theorem c8_counterexample_negative_duration_accepted :
    mainStart [CLIOpt.optD "-5"]
      = ProgStage.openedDisplay { defaultCfg with duration := 18446744073709551611 }
    ∧ parse_ulong "-5".data = some 18446744073709551611 := ⟨rfl, rfl⟩

/-- Claim C8 as amended.  For the x/y/width/height flags, a numeric argument
that `parse_long` rejects (non-numeric text, or magnitude overflowing
`long`) makes the program print one specific error message naming the
offending value and exit with status 1 before any display connection is
opened; an in-`long`-range but out-of-flag-range value likewise exits with
status 1 before opening the display, with a message naming the flag's bound
rather than the value; a duration argument rejected by `parse_ulong`
(non-numeric text, or magnitude above `ULONG_MAX`) does the same with a
message naming the value.  No usage text is printed on these paths (usage is
printed only for unrecognised flags, line 221), and a negative duration is
not rejected at all (see the counterexample). -/
theorem c8_malformed_numeric_args (s : String) :
    (parse_long s.data = none →
      mainStart [CLIOpt.optW s] = ProgStage.exitedBeforeDisplay [msgInvalidWidth s] 1
      ∧ mainStart [CLIOpt.optH s] = ProgStage.exitedBeforeDisplay [msgInvalidHeight s] 1
      ∧ mainStart [CLIOpt.optX s] = ProgStage.exitedBeforeDisplay [msgInvalidX s] 1
      ∧ mainStart [CLIOpt.optY s] = ProgStage.exitedBeforeDisplay [msgInvalidY s] 1)
    ∧ (∀ tmp : Int, parse_long s.data = some tmp → tmp > UINT_MAX →
        mainStart [CLIOpt.optW s] = ProgStage.exitedBeforeDisplay [msgWidthTooBig] 1
        ∧ mainStart [CLIOpt.optH s] = ProgStage.exitedBeforeDisplay [msgHeightTooBig] 1)
    ∧ (∀ tmp : Int, parse_long s.data = some tmp → (tmp < INT_MIN ∨ tmp > INT_MAX) →
        mainStart [CLIOpt.optX s] = ProgStage.exitedBeforeDisplay [msgXRange] 1
        ∧ mainStart [CLIOpt.optY s] = ProgStage.exitedBeforeDisplay [msgYRange] 1)
    ∧ (parse_ulong s.data = none →
        mainStart [CLIOpt.optD s] = ProgStage.exitedBeforeDisplay [msgInvalidDuration s] 1) := by
  refine ⟨fun hp => ?_, fun tmp hp hr => ?_, fun tmp hp hr => ?_, fun hp => ?_⟩
  · refine ⟨?_, ?_, ?_, ?_⟩ <;>
      simp [mainStart, parse_args, applyOpt, hp]
  · constructor <;>
      · simp only [mainStart, parse_args, applyOpt, hp]
        rw [if_pos hr]
  · constructor <;>
      · simp only [mainStart, parse_args, applyOpt, hp]
        rw [if_pos hr]
  · simp [mainStart, parse_args, applyOpt, hp]

theorem c8_malformed_numeric_args_witness :
    mainStart [CLIOpt.optW "abc"]
      = ProgStage.exitedBeforeDisplay [msgInvalidWidth "abc"] 1
    ∧ mainStart [CLIOpt.optD "10x"]
      = ProgStage.exitedBeforeDisplay [msgInvalidDuration "10x"] 1 := by
  refine ⟨((c8_malformed_numeric_args "abc").1 (by rfl)).1, ?_⟩
  exact (c8_malformed_numeric_args "10x").2.2.2 (by rfl)

/-- Claim C9, counterexample.  The claim says every explicit colour name is
resolved against the server's colour table, with unresolvable ones causing an
error exit before window creation.  But the guard at line 308 short-circuits
any name whose first five characters are `"white"`: with colour `"whiteabc"`
and a server that resolves nothing, no error occurs and the window is created
with the default white pixel. -/
theorem c9_counterexample_white_prefix_skips_resolution :
    setupWindow { defaultCfg with color := some "whiteabc" } 7 allocNone 1920 1080
      = SetupResult.windowCreated 7 1920 1080 := rfl

/-- Claim C9 as amended.  With no colour name the background falls back to
the literal default white pixel.  An explicit colour name whose first five
characters are not `"white"` is resolved against the server's colour table:
if unresolvable the process prints `Colour <name> isn't supported`, exits
with status 1, and never reaches `XCreateWindow`; if resolvable the window is
created with the resolved pixel.  (Names beginning with `"white"` bypass
resolution and use the default white pixel — see the counterexample.) -/
theorem c9_color_resolution (c : String) (whitePx px : Nat)
    (alloc : String → Option Nat) (cfg : ProgCfg) (dW dH : Int)
    (hnw : cstrncmp c.data whiteName.data 5 ≠ 0) :
    chooseBackgroundPixel none whitePx alloc = Except.ok whitePx
    ∧ (alloc c = none →
        setupWindow { cfg with color := some c } whitePx alloc dW dH
          = SetupResult.exitedBeforeWindow (msgColourUnsupported c) 1)
    ∧ (alloc c = some px →
        setupWindow { cfg with color := some c } whitePx alloc dW dH
          = SetupResult.windowCreated px (resolvedWidth cfg.w dW) (resolvedHeight cfg.h dH)) := by
  refine ⟨rfl, fun ha => ?_, fun ha => ?_⟩
  · simp [setupWindow, chooseBackgroundPixel, hnw, ha]
  · simp [setupWindow, chooseBackgroundPixel, hnw, ha]

theorem c9_color_resolution_witness :
    setupWindow { defaultCfg with color := some "notacolor123" } 0 allocNone 1920 1080
      = SetupResult.exitedBeforeWindow (msgColourUnsupported "notacolor123") 1
    ∧ chooseBackgroundPixel none 0 allocNone = Except.ok 0 := by
  have h := c9_color_resolution "notacolor123" 0 5 allocNone defaultCfg 1920 1080 (by decide)
  exact ⟨h.2.1 (by rfl), h.1⟩

/-- Claim C10.  Any explicit colour argument whose first five characters are
`"white"` (e.g. `"whitesmoke"`) takes the `WhitePixel` branch at lines
308-309: the result is the default white pixel, independent of the
colour-resolution oracle, so such a name can neither fail resolution nor
yield its actual colour. -/
theorem c10_white_prefix_uses_default (c : String) (whitePx : Nat)
    (a1 a2 : String → Option Nat)
    (h : cstrncmp c.data whiteName.data 5 = 0) :
    chooseBackgroundPixel (some c) whitePx a1 = Except.ok whitePx
    ∧ chooseBackgroundPixel (some c) whitePx a1
        = chooseBackgroundPixel (some c) whitePx a2 := by
  constructor <;> simp [chooseBackgroundPixel, h]

theorem c10_white_prefix_uses_default_witness :
    chooseBackgroundPixel (some "whitesmoke") 3 allocNone = Except.ok 3
    ∧ chooseBackgroundPixel (some "whitesmoke") 3 allocNone
        = chooseBackgroundPixel (some "whitesmoke") 3 allocFive := by
  have h := c10_white_prefix_uses_default "whitesmoke" 3 allocNone allocFive (by rfl)
  exact ⟨h.1, h.2⟩

end XVisBell
